import Mathlib

/-!
Verification development for the Costa Rica jobs scraper
(src/page_scraper.py, class CostaRicaJobsScraper).

The field-extraction engine is shallowly embedded: a parsed HTML document
is a tree of element/text nodes, BeautifulSoup navigation (find,
find_parent, find_next_sibling, find_next, get_text) is modelled over
positions (paths) in that tree in document (preorder) order, and each
regular expression used by the source is modelled by a dedicated matcher
over character lists, faithful to Python re semantics for that pattern.
Dates are modelled as civil day counts (datetime and urljoin are standard
library collaborators of the engine; they are modelled from the spec where
noted).
-/

namespace CRJobs

/-! ## Character and string utilities (Python str semantics) -/

/-- Whitespace characters recognised by the ASCII fragment of Python's
str.strip and of the regex class backslash-s. -/
def isPyWs (c : Char) : Bool :=
  c = ' ' || c = '\t' || c = '\n' || c = '\r' || c = '\x0b' || c = '\x0c'

/-- Lowercasing used by Python str.lower and re.IGNORECASE, extended beyond
ASCII to the accented letters that occur in the source's patterns. -/
def lowerChar (c : Char) : Char :=
  if c = 'Á' then 'á' else if c = 'É' then 'é' else if c = 'Í' then 'í'
  else if c = 'Ó' then 'ó' else if c = 'Ú' then 'ú' else if c = 'Ñ' then 'ñ'
  else c.toLower

def lowerChars (s : String) : List Char := s.toList.map lowerChar

def lowerStr (s : String) : String := String.mk (lowerChars s)

/-- Check that the second list is a prefix of the first argument order:
listIsPrefixOf pat cs decides whether pat is a prefix of cs. -/
def listIsPrefixOf : List Char → List Char → Bool
  | [], _ => true
  | _ :: _, [] => false
  | p :: ps, c :: cs => p == c && listIsPrefixOf ps cs

/-- Substring containment on character lists (Python in-operator and
re.search of a literal). -/
def listContainsSub : List Char → List Char → Bool
  | _, [] => true
  | [], _ :: _ => false
  | c :: cs, p :: ps => listIsPrefixOf (p :: ps) (c :: cs) || listContainsSub cs (p :: ps)

/-- Case-sensitive substring test, Python pat in s. -/
def strContains (s pat : String) : Bool := listContainsSub s.toList pat.toList

/-- Case-insensitive substring test (re.search of a literal alternative
under re.IGNORECASE). -/
def containsCI (s pat : String) : Bool := listContainsSub (lowerChars s) (lowerChars pat)

def trimChars (cs : List Char) : List Char :=
  ((cs.dropWhile isPyWs).reverse.dropWhile isPyWs).reverse

/-- Python str.strip() on the ASCII whitespace fragment. -/
def strTrim (s : String) : String := String.mk (trimChars s.toList)

/-- Python sep.join(list). -/
def joinSep (sep : String) : List String → String
  | [] => ""
  | [s] => s
  | s :: rest => s ++ sep ++ joinSep sep rest

/-- Longest prefix of the list whose characters satisfy p, together with
the rest (the greedy semantics of a regex character-class repetition). -/
def takeRun (p : Char → Bool) : List Char → List Char × List Char
  | [] => ([], [])
  | c :: cs =>
    if p c then
      let r := takeRun p cs
      (c :: r.1, r.2)
    else ([], c :: cs)

/-- Remove every occurrence of the given characters (Python
str.replace(c, '') chained). -/
def removeChars (bad : List Char) (s : String) : String :=
  String.mk (s.toList.filter (fun c => !(bad.contains c)))

/-- Split a character list on a separator character (Python str.split(sep)
restricted to a one-character separator). -/
def splitOnChar (sep : Char) : List Char → List (List Char)
  | [] => [[]]
  | c :: rest =>
    let r := splitOnChar sep rest
    if c == sep then [] :: r
    else
      match r with
      | g :: gs => (c :: g) :: gs
      | [] => [[c]]

/-- Numeric value of a digit list. -/
def digitsVal (cs : List Char) : Nat :=
  cs.foldl (fun a c => a * 10 + (c.toNat - 48)) 0

/-! ## The parsed document tree (the ParsedDocument collaborator) -/

/-- A parsed HTML node: an element with a tag name, attributes and children
in document order, or a navigable string. The class attribute is kept as
its literal string value. -/
inductive Node where
  | elem (tag : String) (attrs : List (String × String)) (children : List Node)
  | text (s : String)

/-- Position of a node inside a document: the list of child indices from
the root. -/
abbrev NPath := List Nat

def childrenOf : Node → List Node
  | .elem _ _ cs => cs
  | .text _ => []

def isTag : Node → Bool
  | .elem _ _ _ => true
  | .text _ => false

def tagOf : Node → String
  | .elem t _ _ => t
  | .text _ => ""

/-- Attribute lookup, Python tag.get(key). -/
def getAttr (n : Node) (k : String) : Option String :=
  match n with
  | .elem _ attrs _ => attrs.lookup k
  | .text _ => none

def nodeAt : Node → NPath → Option Node
  | n, [] => some n
  | n, i :: p =>
    match (childrenOf n).get? i with
    | some c => nodeAt c p
    | none => none

mutual
/-- Paths of all nodes of the subtree in document (preorder) order, the
subtree root first: the order of BeautifulSoup's descendants and
next_elements iteration. -/
def pathsFrom : NPath → Node → List NPath
  | pre, .text _ => [pre]
  | pre, .elem _ _ cs => pre :: pathsFromList pre 0 cs
def pathsFromList : NPath → Nat → List Node → List NPath
  | _, _, [] => []
  | pre, i, c :: cs => pathsFrom (pre ++ [i]) c ++ pathsFromList pre (i + 1) cs
end

/-- All node paths of the document in document order, the root first. -/
def docPaths (root : Node) : List NPath := pathsFrom [] root

/-- Paths of all proper descendants of the root in document order: the
search space of soup.find and soup.find_all. -/
def descendants (root : Node) : List NPath := (docPaths root).drop 1

mutual
/-- All navigable strings of the subtree in document order: the stream
joined by BeautifulSoup's get_text. -/
def allStrings : Node → List String
  | .text s => [s]
  | .elem _ _ cs => allStringsList cs
def allStringsList : List Node → List String
  | [] => []
  | c :: cs => allStrings c ++ allStringsList cs
end

/-- BeautifulSoup node.get_text(separator=sep, strip=True): each descendant
string is stripped, whitespace-only strings are dropped, and the rest are
joined with the separator. -/
def getTextStrip (sep : String) (n : Node) : String :=
  joinSep sep (((allStrings n).map strTrim).filter (fun s => !(s == "")))

/-- BeautifulSoup node.get_text() with default arguments: the raw
concatenation of all descendant strings. -/
def getTextRaw (n : Node) : String := joinSep "" (allStrings n)

/-! ## Navigation (BeautifulSoup find family) -/

/-- First proper descendant, in document order, whose node satisfies the
predicate: soup.find(criteria) for criteria matching tags only. -/
def findPath (root : Node) (p : Node → Bool) : Option NPath :=
  (descendants root).find? fun q => ((nodeAt root q).map p).getD false

/-- All matching proper descendants in document order: soup.find_all. -/
def findAllPaths (root : Node) (p : Node → Bool) : List NPath :=
  (descendants root).filter fun q => ((nodeAt root q).map p).getD false

/-- First navigable string, in document order, matching the predicate:
soup.find(text=regex), which matches strings only. -/
def findText (root : Node) (p : String → Bool) : Option NPath :=
  (descendants root).find? fun q =>
    match nodeAt root q with
    | some (.text s) => p s
    | _ => false

/-- Direct parent of a node: NavigableString.find_parent() with no
criteria, whose first candidate parent (always a tag) matches. -/
def parentOf (p : NPath) : Option NPath :=
  match p with
  | [] => none
  | _ :: _ => some p.dropLast

/-- Next sibling tag: element.find_next_sibling() with no criteria, which
skips navigable strings. -/
def nextSiblingTag (root : Node) (p : NPath) : Option NPath :=
  match p.getLast?, parentOf p with
  | some i, some q =>
    match nodeAt root q with
    | some par =>
      (((List.range (childrenOf par).length).filter fun j =>
          i < j && (((childrenOf par).get? j).map isTag).getD false).head?).map
        fun j => q ++ [j]
    | none => none
  | _, _ => none

/-- Paths strictly after p in document order (BeautifulSoup next_elements:
first the node's own descendants, then the rest of the document). -/
def pathsAfter (root : Node) (p : NPath) : List NPath :=
  ((docPaths root).dropWhile fun q => !(q == p)).drop 1

/-- Next tag in document order after p: element.find_next() with no
criteria, which matches tags only. -/
def nextTag (root : Node) (p : NPath) : Option NPath :=
  ((pathsAfter root p).filter fun q => ((nodeAt root q).map isTag).getD false).head?

/-- Python x or y on two optional navigation results (a found tag is always
truthy). -/
def pyOr (a b : Option NPath) : Option NPath :=
  match a with
  | some v => some v
  | none => b

/-- Does the element carry a class attribute whose value matches the
predicate (soup.find(class_=regex))? For the source's patterns, a regex
search over the literal class string coincides with BeautifulSoup's
per-class matching, since no pattern alternative contains a space. -/
def classMatches (p : String → Bool) (n : Node) : Bool :=
  isTag n && (((getAttr n "class").map p).getD false)

/-- Does the element carry the named attribute with a value matching the
predicate (soup.find(tag, attr=regex))? -/
def attrMatches (k : String) (p : String → Bool) (n : Node) : Bool :=
  isTag n && (((getAttr n k).map p).getD false)

/-! ## Matchers for the regular expressions of the source

Each regex of page_scraper.py is modelled by a dedicated matcher with the
search semantics of the pattern; greedy character-class repetitions whose
follow set is disjoint from the class are maximal runs, which makes every
matcher deterministic. -/

/-- Drop a case-insensitively matching literal (given lowercased) from the
front of the input. -/
def dropLitCI : List Char → List Char → Option (List Char)
  | [], cs => some cs
  | _ :: _, [] => none
  | p :: ps, c :: cs => if lowerChar c == p then dropLitCI ps cs else none

/-- Match of Vacante backslash-s-plus Fresca (re.IGNORECASE) at the head of
the input, returning the rest on success. -/
def tryVF (cs : List Char) : Option (List Char) :=
  (dropLitCI "vacante".toList cs).bind fun r1 =>
    match r1 with
    | c :: rest =>
      if isPyWs c then dropLitCI "fresca".toList ((takeRun isPyWs rest).2) else none
    | [] => none

/-- Search for the Vacante Fresca badge anywhere in the input. -/
def hasVF : List Char → Bool
  | [] => false
  | c :: cs => (tryVF (c :: cs)).isSome || hasVF cs

def subVFAux : Nat → List Char → List Char
  | 0, cs => cs
  | _ + 1, [] => []
  | fuel + 1, c :: cs =>
    match tryVF (c :: cs) with
    | some rest => subVFAux fuel rest
    | none => c :: subVFAux fuel cs

/-- Python re.sub of the Vacante Fresca badge pattern with the empty
string: delete every left-to-right non-overlapping match. The fuel starts
at the input length and dominates it throughout, so it never runs out. -/
def subVF (s : String) : String := String.mk (subVFAux s.toList.length s.toList)

/-- Text-node pattern of is_urgent. -/
def matchUrgent (s : String) : Bool := hasVF s.toList || containsCI s "urgente"

/-- Character class of the deadline regex as written in the source: the
raw string Fecha[backslash backslash s]+Límite makes the class contain a
literal backslash and the letter s, not whitespace. -/
def isBSorS (c : Char) : Bool := c == '\\' || lowerChar c == 's'

/-- Match of the first alternative of the deadline label regex exactly as
the source spells it. -/
def tryFechaCode (cs : List Char) : Option (List Char) :=
  (dropLitCI "fecha".toList cs).bind fun r1 =>
    match r1 with
    | c :: rest =>
      if isBSorS c then dropLitCI "límite".toList ((takeRun isBSorS rest).2) else none
    | [] => none

def hasFechaCode : List Char → Bool
  | [] => false
  | c :: cs => (tryFechaCode (c :: cs)).isSome || hasFechaCode cs

/-- Text-node pattern of extract_deadline as the source's regex actually
behaves. -/
def matchDeadlineCode (s : String) : Bool :=
  hasFechaCode s.toList || containsCI s "deadline" || containsCI s "cierre"

/-- Modelled from the spec: the deadline label pattern the spec documents,
Fecha whitespace Límite, or Deadline, or Cierre (what the source's regex
was evidently intended to be, with a single backslash before the s). -/
def tryFechaSpec (cs : List Char) : Option (List Char) :=
  (dropLitCI "fecha".toList cs).bind fun r1 =>
    match r1 with
    | c :: rest =>
      if isPyWs c then dropLitCI "límite".toList ((takeRun isPyWs rest).2) else none
    | [] => none

def hasFechaSpec : List Char → Bool
  | [] => false
  | c :: cs => (tryFechaSpec (c :: cs)).isSome || hasFechaSpec cs

/-- Modelled from the spec: deadline label matching with real whitespace. -/
def matchDeadlineSpec (s : String) : Bool :=
  hasFechaSpec s.toList || containsCI s "deadline" || containsCI s "cierre"

/-- Label pattern Salario, Salary, Sueldo (re.IGNORECASE). -/
def matchSalaryLabel (s : String) : Bool :=
  containsCI s "salario" || containsCI s "salary" || containsCI s "sueldo"

/-- Match of word, optional hyphen or whitespace, then the word time, at
the head of the input (the Full[-s]?Time alternatives). -/
def tryWordSepTime (word : List Char) (cs : List Char) : Bool :=
  match dropLitCI word cs with
  | none => false
  | some rest =>
    (dropLitCI "time".toList rest).isSome ||
    (match rest with
     | c :: rest2 => (isPyWs c || c == '-') && (dropLitCI "time".toList rest2).isSome
     | [] => false)

def hasWordSepTime (word : List Char) : List Char → Bool
  | [] => false
  | c :: cs => tryWordSepTime word (c :: cs) || hasWordSepTime word cs

/-- Text-node pattern of extract_type. -/
def matchTypePat (s : String) : Bool :=
  containsCI s "tiempo completo" || containsCI s "tiempo parcial" ||
  hasWordSepTime "full".toList s.toList || hasWordSepTime "part".toList s.toList

/-- Email local-part character class. -/
def isLocalChar (c : Char) : Bool :=
  c.isAlphanum || c == '.' || c == '_' || c == '%' || c == '+' || c == '-'

/-- Email domain character class. -/
def isDomainChar (c : Char) : Bool := c.isAlphanum || c == '.' || c == '-'

def isAsciiLetter (c : Char) : Bool := ('a' ≤ c && c ≤ 'z') || ('A' ≤ c && c ≤ 'Z')

/-- Regex backtracking over the greedy domain run: the largest split point
k such that the character at k is a dot preceded by a nonempty domain part
and followed by at least two ASCII letters. -/
def emailDomSplit (dom : List Char) : Option Nat :=
  (((List.range dom.length).reverse).filter fun k =>
    decide (1 ≤ k) && (dom.get? k == some '.') &&
    decide (2 ≤ ((takeRun isAsciiLetter (dom.drop (k + 1))).1).length)).head?

/-- Attempted match of the email regex of extract_email at the head of the
input, returning the matched characters. -/
def tryEmail (cs : List Char) : Option (List Char) :=
  let loc := takeRun isLocalChar cs
  if loc.1.isEmpty then none
  else
    match loc.2 with
    | '@' :: r2 =>
      let dom := (takeRun isDomainChar r2).1
      match emailDomSplit dom with
      | some k =>
        let tld := (takeRun isAsciiLetter (dom.drop (k + 1))).1
        some (loc.1 ++ '@' :: (dom.take k) ++ '.' :: tld)
      | none => none
    | _ => none

/-- Leftmost match of the email regex (the first element of re.findall). -/
def firstEmail : List Char → Option (List Char)
  | [] => none
  | c :: cs =>
    match tryEmail (c :: cs) with
    | some m => some m
    | none => firstEmail cs

/-- Tail class of the numeric-token regex digit-plus [digit comma dot]
star. -/
def isNumTail (c : Char) : Bool := c.isDigit || c == ',' || c == '.'

def numTokensAux : Nat → List Char → List String
  | 0, _ => []
  | _ + 1, [] => []
  | fuel + 1, c :: cs =>
    if c.isDigit then
      let r := takeRun isNumTail cs
      String.mk (c :: r.1) :: numTokensAux fuel r.2
    else numTokensAux fuel cs

/-- Python re.findall of the numeric-token pattern: every maximal
digit-initial run of digits, commas and periods, in order. -/
def numTokens (s : String) : List String := numTokensAux s.toList.length s.toList

/-- Character class [a-záéíóúñ] under re.IGNORECASE. -/
def isSpanishLetter (c : Char) : Bool :=
  let l := lowerChar c
  ('a' ≤ l && l ≤ 'z') || l == 'á' || l == 'é' || l == 'í' || l == 'ó' || l == 'ú' || l == 'ñ'

/-- Match of the capitalized-word-comma-region location pattern at the
head of the input. -/
def tryLocPat (cs : List Char) : Bool :=
  match cs with
  | c :: rest =>
    if isAsciiLetter c then
      let run := takeRun isSpanishLetter rest
      if run.1.isEmpty then false
      else
        match run.2 with
        | ',' :: r3 =>
          let r4 := (takeRun isPyWs r3).2
          (dropLitCI "san jose".toList r4).isSome ||
          (dropLitCI "costa rica".toList r4).isSome
        | _ => false
    else false
  | [] => false

def hasLocPat : List Char → Bool
  | [] => false
  | c :: cs => tryLocPat (c :: cs) || hasLocPat cs

/-! ## Dates (the datetime collaborator)

The current moment of datetime.now() enters the engine only through its
civil date, modelled as the count of days since 1970-01-01. -/

/-- Conversion from a day count since 1970-01-01 to a civil
(year, month, day) date, the standard era-based algorithm. -/
def civilFromDays (z0 : Nat) : Nat × Nat × Nat :=
  let z := z0 + 719468
  let era := z / 146097
  let doe := z % 146097
  let yoe := (doe - doe / 1460 + doe / 36524 - doe / 146096) / 365
  let y := yoe + era * 400
  let doy := doe - (365 * yoe + yoe / 4 - yoe / 100)
  let mp := (5 * doy + 2) / 153
  let d := doy - (153 * mp + 2) / 5 + 1
  let m := if mp < 10 then mp + 3 else mp - 9
  (if m ≤ 2 then y + 1 else y, m, d)

def pad2 (n : Nat) : String := if n < 10 then "0" ++ toString n else toString n

def pad4 (n : Nat) : String :=
  if n < 10 then "000" ++ toString n
  else if n < 100 then "00" ++ toString n
  else if n < 1000 then "0" ++ toString n
  else toString n

/-- strftime with the year-month-day format. -/
def formatYMD : Nat × Nat × Nat → String
  | (y, m, d) => pad4 y ++ "-" ++ pad2 m ++ "-" ++ pad2 d

def isLeapYear (y : Nat) : Bool :=
  y % 4 == 0 && (y % 100 != 0 || y % 400 == 0)

def daysInMonth (y m : Nat) : Nat :=
  if m == 2 then (if isLeapYear y then 29 else 28)
  else if m == 4 || m == 6 || m == 9 || m == 11 then 30
  else 31

/-- datetime.strptime with the day/month/year format: three slash-separated
all-digit groups, the day and month of at most two digits, the year of
exactly four, validated against the civil calendar. -/
def parseDMY (s : String) : Option (Nat × Nat × Nat) :=
  match splitOnChar '/' s.toList with
  | [d, m, y] =>
    if decide (1 ≤ d.length) && decide (d.length ≤ 2) && d.all Char.isDigit &&
       decide (1 ≤ m.length) && decide (m.length ≤ 2) && m.all Char.isDigit &&
       y.length == 4 && y.all Char.isDigit then
      let dv := digitsVal d
      let mv := digitsVal m
      let yv := digitsVal y
      if decide (1 ≤ dv) && decide (1 ≤ mv) && decide (mv ≤ 12) && decide (1 ≤ yv) &&
         decide (dv ≤ daysInMonth yv mv)
      then some (yv, mv, dv)
      else none
    else none
  | _ => none

/-! ## URL resolution (the urljoin collaborator) -/

def isSchemeTailChar (c : Char) : Bool :=
  c.isAlphanum || c == '+' || c == '-' || c == '.'

/-- Does the URL begin with a scheme (a letter-initial run of scheme
characters followed by a colon)? -/
def listHasScheme (cs : List Char) : Bool :=
  match cs with
  | c :: _ =>
    c.isAlpha &&
    (match (takeRun isSchemeTailChar cs).2 with
     | ':' :: _ => true
     | _ => false)
  | [] => false

def hasScheme (u : String) : Bool := listHasScheme u.toList

/-- Fixed base origin of the scraper. -/
def base_url : String := "https://empleos.net"

def urljoinChars (rel : List Char) : List Char :=
  if rel.isEmpty then base_url.toList
  else if listHasScheme rel then rel
  else
    match rel with
    | '/' :: '/' :: _ => "https:".toList ++ rel
    | '/' :: _ => base_url.toList ++ rel
    | _ => base_url.toList ++ '/' :: rel

/-- Modelled from the spec: the URL-resolution collaborator (spec section
6) that resolves a possibly relative link or source attribute against the
fixed base origin to an absolute URL, as Python urljoin does for this
base: an input with a scheme is kept, a protocol-relative input receives
the base scheme, and anything else is attached to the base origin. -/
def urljoin (rel : String) : String := String.mk (urljoinChars rel.toList)

/-! ## Per-field extractors (CostaRicaJobsScraper methods) -/

/-- Shared label-then-value idiom exactly as the source writes it in
extract_category, extract_gender, extract_experience, extract_career_level,
extract_qualification and extract_deadline: find the label string, take
its enclosing element, then that element's next sibling tag or (Python or)
its find_next tag; the value is the found element's stripped flattened
text. -/
def labelValue (root : Node) (labelMatch : String → Bool) : Option String :=
  match findText root labelMatch with
  | some tp =>
    match parentOf tp with
    | some pp =>
      match pyOr (nextSiblingTag root pp) (nextTag root pp) with
      | some vp =>
        match nodeAt root vp with
        | some v => some (getTextStrip "" v)
        | none => none
      | none => none
    | none => none
  | none => none

def logoClassPat (c : String) : Bool := strContains c "logo" || strContains c "company"

def extract_featured_image (soup : Node) : String :=
  match findPath soup (fun n => tagOf n == "img" && classMatches logoClassPat n) with
  | some p =>
    match (nodeAt soup p).bind (fun n => getAttr n "src") with
    | some src => if src == "" then "" else urljoin src
    | none => ""
  | none => ""

def isHeading (n : Node) : Bool :=
  tagOf n == "h1" || tagOf n == "h2" || tagOf n == "h3"

/-- Heading texts that survive the badge strip and the length test of
extract_title, in document order. -/
def titleCandidates (soup : Node) : List String :=
  ((findAllPaths soup isHeading).filterMap (nodeAt soup)).filterMap fun h =>
    let t := strTrim (subVF (getTextStrip "" h))
    if ¬(t = "") ∧ 2 < t.length then some t else none

def titleClassPat (c : String) : Bool :=
  strContains c "title" || strContains c "puesto" || strContains c "job-title"

def extract_title (soup : Node) : String :=
  match titleCandidates soup with
  | t :: _ => t
  | [] =>
    match (findPath soup (classMatches titleClassPat)).bind (nodeAt soup) with
    | some n => strTrim (subVF (getTextStrip "" n))
    | none => ""

def featuredClassPat (c : String) : Bool :=
  containsCI c "featured" || containsCI c "destacado"

def is_featured (soup : Node) : Nat :=
  if (findPath soup (classMatches featuredClassPat)).isSome then 1 else 0

def is_urgent (soup : Node) : Nat :=
  if (findText soup matchUrgent).isSome then 1 else 0

def descLabelPat (s : String) : Bool :=
  strContains s "Funciones del Puesto" || strContains s "Descripción"

def descClassPat (c : String) : Bool :=
  strContains c "description" || strContains c "funciones" || strContains c "contenido"

/-- extract_description: unlike the shared idiom, its second navigation
choice is parent.parent, the label's enclosing element's own parent. -/
def extract_description (soup : Node) : String :=
  let viaLabel :=
    match findText soup descLabelPat with
    | some tp =>
      match parentOf tp with
      | some pp =>
        match pyOr (nextSiblingTag soup pp) (parentOf pp) with
        | some dp => (nodeAt soup dp).map (getTextStrip "\n")
        | none => none
      | none => none
    | none => none
  match viaLabel with
  | some v => v
  | none =>
    match (findPath soup (classMatches descClassPat)).bind (nodeAt soup) with
    | some n => getTextStrip "\n" n
    | none => ""

def categoryLabelPat (s : String) : Bool :=
  containsCI s "área del puesto" || containsCI s "category"

def extract_category (soup : Node) : String :=
  match labelValue soup categoryLabelPat with
  | some v => v
  | none => "Aduanas"

def extract_type (soup : Node) : String :=
  match (findText soup matchTypePat).bind (nodeAt soup) with
  | some (.text s) =>
    let t := lowerStr (strTrim s)
    if strContains t "completo" || strContains t "full" then "Tiempo Completo"
    else if strContains t "parcial" || strContains t "medio" || strContains t "part" then
      "Tiempo Parcial"
    else "Tiempo Completo"
  | _ => "Tiempo Completo"

def tagIconSrcPat (s : String) : Bool := strContains s "icon" || strContains s "tag"

def extract_tags (soup : Node) : String :=
  let tags :=
    ((findAllPaths soup (fun n => tagOf n == "img" && attrMatches "src" tagIconSrcPat n)).filterMap
        (nodeAt soup)).filterMap fun icon =>
      let alt := strTrim ((getAttr icon "alt").getD "")
      if alt == "" then none else some alt
  if tags.isEmpty then "" else joinSep "," tags

/-- Source calculate_expiry_date with the clock as explicit input: the
civil date 90 days after today, formatted year-month-day. -/
def calculate_expiry_date (today : Nat) : String :=
  formatYMD (civilFromDays (today + 90))

def genderLabelPat (s : String) : Bool :=
  containsCI s "género" || containsCI s "gender" || containsCI s "sexo"

def extract_gender (soup : Node) : String :=
  match labelValue soup genderLabelPat with
  | some v =>
    let t := lowerStr v
    if strContains t "masculino" || strContains t "hombre" || strContains t "male" then
      "Masculino"
    else if strContains t "femenino" || strContains t "mujer" || strContains t "female" then
      "Femenino"
    else if strContains t "indistinto" || strContains t "ambos" || strContains t "both" then
      "Indistinto"
    else "Indistinto"
  | none => "Indistinto"

def extract_email (soup : Node) : String :=
  match firstEmail (getTextRaw soup).toList with
  | some m => String.mk m
  | none => ""

def extract_salary_type (soup : Node) : String :=
  match findText soup matchSalaryLabel with
  | some tp =>
    match (parentOf tp).bind (nodeAt soup) with
    | some par =>
      let t := lowerStr (getTextStrip "" par)
      if strContains t "mensual" || strContains t "monthly" || strContains t "mes" then
        "Mensual"
      else if strContains t "anual" || strContains t "yearly" || strContains t "año" then
        "Anual"
      else if strContains t "hora" || strContains t "hourly" then "Por Hora"
      else if strContains t "semanal" || strContains t "weekly" || strContains t "semana" then
        "Semanal"
      else "Mensual"
    | none => "Mensual"
  | none => "Mensual"

def extract_salary (soup : Node) : String :=
  match findText soup matchSalaryLabel with
  | some tp =>
    match (parentOf tp).bind (nodeAt soup) with
    | some par =>
      match numTokens (getTextRaw par) with
      | t :: _ => removeChars [',', '.'] t
      | [] => ""
    | none => ""
  | none => ""

def extract_max_salary (soup : Node) : String :=
  match findText soup matchSalaryLabel with
  | some tp =>
    match (parentOf tp).bind (nodeAt soup) with
    | some par =>
      match numTokens (getTextRaw par) with
      | _ :: t :: _ => removeChars [',', '.'] t
      | _ => ""
    | none => ""
  | none => ""

def experienceLabelPat (s : String) : Bool :=
  containsCI s "experiencia" || containsCI s "experience"

def extract_experience (soup : Node) : String :=
  match labelValue soup experienceLabelPat with
  | some v => v
  | none => ""

def careerLabelPat (s : String) : Bool :=
  containsCI s "nivel de cómputo" || containsCI s "career level" || containsCI s "nivel"

def extract_career_level (soup : Node) : String :=
  match labelValue soup careerLabelPat with
  | some v => if v == "" then "Nivel Básico" else v
  | none => "Nivel Básico"

def qualificationLabelPat (s : String) : Bool :=
  containsCI s "nivel académico" || containsCI s "education" ||
  containsCI s "qualification" || containsCI s "escolaridad"

def extract_qualification (soup : Node) : String :=
  match labelValue soup qualificationLabelPat with
  | some v => v
  | none => ""

def videoSrcPat (s : String) : Bool := containsCI s "youtube" || containsCI s "vimeo"

def firstVideoIframe (soup : Node) : Option NPath :=
  findPath soup fun n => tagOf n == "iframe" && attrMatches "src" videoSrcPat n

def extract_video (soup : Node) : String :=
  match (firstVideoIframe soup).bind (nodeAt soup) with
  | some v => (getAttr v "src").getD ""
  | none => ""

def photoOk (src : String) : Bool :=
  !(src == "") && !(strContains (lowerStr src) "logo") && !(strContains (lowerStr src) "icon")

/-- The accumulation loop of extract_photos over the found images. -/
def collectPhotos : List Node → List String
  | [] => []
  | img :: rest =>
    let src := (getAttr img "src").getD ""
    if photoOk src then urljoin src :: collectPhotos rest
    else collectPhotos rest

def imgNodes (soup : Node) : List Node :=
  (findAllPaths soup (fun n => tagOf n == "img")).filterMap (nodeAt soup)

def extract_photos (soup : Node) : String :=
  joinSep "," ((collectPhotos (imgNodes soup)).take 5)

def extract_deadline (soup : Node) (today : Nat) : String :=
  match labelValue soup matchDeadlineCode with
  | some dateText =>
    match parseDMY dateText with
    | some ymd => formatYMD ymd
    | none => calculate_expiry_date today
  | none => calculate_expiry_date today

def locationClassPat (c : String) : Bool :=
  strContains c "location" || strContains c "ubicacion"

def locationLabelPat (s : String) : Bool :=
  containsCI s "ubicación del puesto" || containsCI s "location" || containsCI s "ubicación"

def pinClassPat (c : String) : Bool :=
  strContains c "location" || strContains c "map" || strContains c "pin"

def extract_location (soup : Node) : String :=
  let step1 :=
    match (findPath soup (classMatches locationClassPat)).bind (nodeAt soup) with
    | some n => let t := getTextStrip "" n; if t == "" then none else some t
    | none => none
  match step1 with
  | some v => v
  | none =>
    let step2 :=
      match labelValue soup locationLabelPat with
      | some t => if t == "" then none else some t
      | none => none
    match step2 with
    | some v => v
    | none =>
      let step3 :=
        (((findAllPaths soup fun n => tagOf n == "i" && classMatches pinClassPat n).filterMap
          fun p =>
            match (nextSiblingTag soup p).bind (nodeAt soup) with
            | some sib =>
              let t := getTextStrip "" sib
              if ¬(t = "") ∧ 3 < t.length then some t else none
            | none => none)).head?
      match step3 with
      | some v => v
      | none =>
        match (findText soup fun s => hasLocPat s.toList).bind (nodeAt soup) with
        | some (.text s) => strTrim s
        | _ => "Costa Rica"

/-! ## Record assembly (get_job_details) -/

/-- Value of one record field: a string or an integer flag, matching the
two value shapes the Python dict holds. -/
inductive JVal where
  | s (v : String)
  | n (v : Nat)

/-- The extraction core of get_job_details (source lines 60 to 92): given
the parsed document, the page URL and today's date, build the job record
as an association list in the source's insertion order. Location is
extracted once and reused for the three location fields. -/
def get_job_details (soup : Node) (job_url : String) (today : Nat) :
    List (String × JVal) :=
  let location_value := extract_location soup
  [("_job_featured_image", .s (extract_featured_image soup)),
   ("_job_title", .s (extract_title soup)),
   ("_job_featured", .n (is_featured soup)),
   ("_job_filled", .n 0),
   ("_job_urgent", .n (is_urgent soup)),
   ("_job_description", .s (extract_description soup)),
   ("_job_category", .s (extract_category soup)),
   ("_job_type", .s (extract_type soup)),
   ("_job_tag", .s (extract_tags soup)),
   ("_job_expiry_date", .s (calculate_expiry_date today)),
   ("_job_gender", .s (extract_gender soup)),
   ("_job_apply_type", .s "external"),
   ("_job_apply_url", .s job_url),
   ("_job_apply_email", .s (extract_email soup)),
   ("_job_salary_type", .s (extract_salary_type soup)),
   ("_job_salary", .s (extract_salary soup)),
   ("_job_max_salary", .s (extract_max_salary soup)),
   ("_job_experience", .s (extract_experience soup)),
   ("_job_career_level", .s (extract_career_level soup)),
   ("_job_qualification", .s (extract_qualification soup)),
   ("_job_video_url", .s (extract_video soup)),
   ("_job_photos", .s (extract_photos soup)),
   ("_job_application_deadline_date", .s (extract_deadline soup today)),
   ("_job_address", .s location_value),
   ("_job_location", .s location_value),
   ("_job_map_location", .s location_value)]

/-- Field access in the produced record (Python dict lookup). -/
def getField : List (String × JVal) → String → Option JVal
  | [], _ => none
  | (k2, v) :: rest, k => if k2 = k then some v else getField rest k

/-! ## Specification-side definitions

Each definition below follows the wording of the spec (or of a claim) and
exists to be compared with the corresponding source-derived definition. -/

/-- The fixed persisted-format key set of the record, in the documented
order. -/
def jobRecordKeys : List String :=
  ["_job_featured_image", "_job_title", "_job_featured", "_job_filled", "_job_urgent",
   "_job_description", "_job_category", "_job_type", "_job_tag", "_job_expiry_date",
   "_job_gender", "_job_apply_type", "_job_apply_url", "_job_apply_email",
   "_job_salary_type", "_job_salary", "_job_max_salary", "_job_experience",
   "_job_career_level", "_job_qualification", "_job_video_url", "_job_photos",
   "_job_application_deadline_date", "_job_address", "_job_location",
   "_job_map_location"]

/-- Modelled from the spec: the documented per-field defaults for a
document with no matching elements (spec section 4.1 table): empty
strings, the literals Aduanas, Tiempo Completo, Indistinto, Mensual,
Nivel Básico, Costa Rica and external, zero flags, the verbatim input URL
and the computed today-plus-90-days date. -/
def specDefaultRecord (job_url : String) (today : Nat) : List (String × JVal) :=
  [("_job_featured_image", .s ""),
   ("_job_title", .s ""),
   ("_job_featured", .n 0),
   ("_job_filled", .n 0),
   ("_job_urgent", .n 0),
   ("_job_description", .s ""),
   ("_job_category", .s "Aduanas"),
   ("_job_type", .s "Tiempo Completo"),
   ("_job_tag", .s ""),
   ("_job_expiry_date", .s (formatYMD (civilFromDays (today + 90)))),
   ("_job_gender", .s "Indistinto"),
   ("_job_apply_type", .s "external"),
   ("_job_apply_url", .s job_url),
   ("_job_apply_email", .s ""),
   ("_job_salary_type", .s "Mensual"),
   ("_job_salary", .s ""),
   ("_job_max_salary", .s ""),
   ("_job_experience", .s ""),
   ("_job_career_level", .s "Nivel Básico"),
   ("_job_qualification", .s ""),
   ("_job_video_url", .s ""),
   ("_job_photos", .s ""),
   ("_job_application_deadline_date", .s (formatYMD (civilFromDays (today + 90)))),
   ("_job_address", .s "Costa Rica"),
   ("_job_location", .s "Costa Rica"),
   ("_job_map_location", .s "Costa Rica")]

/-- Badge-stripped trimmed texts of all h1, h2, h3 headings in document
order, as the claim describes them. -/
def specHeadingTexts (soup : Node) : List String :=
  ((findAllPaths soup isHeading).filterMap (nodeAt soup)).map fun h =>
    strTrim (subVF (getTextStrip "" h))

/-- Class-pattern lookup on title-like class names, the documented
fallback of the title rule. -/
def specTitleClassLookup (soup : Node) : String :=
  match (findPath soup (classMatches titleClassPat)).bind (nodeAt soup) with
  | some n => strTrim (subVF (getTextStrip "" n))
  | none => ""

/-- The label-then-value idiom in the spec's words: locate a text node
matching the label pattern; from it, take the enclosing element's next
sibling, or failing that, the next element in document order; extract
that element's flattened text as the value. -/
def specLabelThenValue (root : Node) (labelMatch : String → Bool) : Option String :=
  (findText root labelMatch).bind fun tp =>
    (parentOf tp).bind fun pp =>
      ((pyOr (nextSiblingTag root pp) (nextTag root pp)).bind (nodeAt root)).map
        (getTextStrip "")

/-- The description rule as the source actually behaves (the amendment of
claim C8): label-then-value whose second navigation choice is the
enclosing element's parent, with newline-joined flattened text; else the
class-pattern lookup; else the empty string. -/
def specDescriptionRule (soup : Node) : String :=
  match
    (findText soup descLabelPat).bind fun tp =>
      (parentOf tp).bind fun pp =>
        ((pyOr (nextSiblingTag soup pp) (parentOf pp)).bind (nodeAt soup)).map
          (getTextStrip "\n")
  with
  | some v => v
  | none =>
    match (findPath soup (classMatches descClassPat)).bind (nodeAt soup) with
    | some n => getTextStrip "\n" n
    | none => ""

/-- Photo list in the spec's words: the source URLs of all images, those
containing logo or icon (case-insensitively) excluded, each resolved to
an absolute URL, in document order. -/
def specPhotosList (soup : Node) : List String :=
  (((imgNodes soup).map fun img => (getAttr img "src").getD "").filter photoOk).map urljoin

/-! ## Concrete example documents -/

/-- A syntactically valid, completely empty parsed document. -/
def emptyDoc : Node := .elem "[document]" [] []

/-- Document whose only salary-labeled text is the scenario string. -/
def salaryDoc : Node :=
  .elem "[document]" [] [.elem "div" [] [.text "Salario: 450000 - 650000 mensual"]]

/-- Document whose heading list is the scenario's single badge-carrying
heading. -/
def titleScenDoc : Node :=
  .elem "[document]" [] [.elem "h1" [] [.text "Vacante Fresca Miscelánea"]]

/-- Document with one heading whose text is nonempty but only two
characters long. -/
def titleCexDoc : Node := .elem "[document]" [] [.elem "h1" [] [.text "AB"]]

/-- Document with a deadline label written Fecha Límite (with an ordinary
space) whose enclosing element's next sibling holds a parseable date. -/
def deadlineBugDoc : Node :=
  .elem "[document]" [] [.elem "div" [] [
    .elem "span" [] [.text "Fecha Límite"],
    .elem "span" [] [.text "31/12/2025"]]]

/-- Document where the description label's enclosing element has no next
sibling, so the code's parent fallback and the claimed next-element
fallback pick different elements. -/
def descCexDoc : Node :=
  .elem "[document]" [] [
    .elem "div" [] [.elem "p" [] [.text "Descripción"]],
    .elem "div" [] [.text "XYZ"]]

/-- Document with a matching iframe whose src attribute is relative. -/
def videoRelDoc : Node :=
  .elem "[document]" [] [.elem "iframe" [("src", "youtube/embed1")] []]

/-! ## Helper lemmas -/

/-- The candidate loop of extract_title keeps exactly the badge-stripped
heading texts longer than two characters (the nonemptiness test of the
source is subsumed by the length test). -/
theorem titleCandidates_eq (soup : Node) :
    titleCandidates soup = (specHeadingTexts soup).filter fun t => decide (2 < t.length) := by
  unfold titleCandidates specHeadingTexts
  generalize (findAllPaths soup isHeading).filterMap (nodeAt soup) = l
  induction l with
  | nil => rfl
  | cons h rest ih =>
    simp only [List.filterMap_cons, List.map_cons, List.filter_cons]
    by_cases h2 : 2 < (strTrim (subVF (getTextStrip "" h))).length
    · have hne : ¬(strTrim (subVF (getTextStrip "" h)) = "") := by
        intro he
        rw [he] at h2
        simp at h2
      rw [if_pos (And.intro hne h2)]
      simp [h2, ih]
    · rw [if_neg fun hc => h2 hc.2]
      simp [h2, ih]

/-- The source's label-then-value code equals the spec's description of
the idiom. -/
theorem labelValue_eq_spec (root : Node) (pat : String → Bool) :
    labelValue root pat = specLabelThenValue root pat := by
  unfold labelValue specLabelThenValue
  cases findText root pat with
  | none => rfl
  | some tp =>
    simp only [Option.bind]
    cases parentOf tp with
    | none => rfl
    | some pp =>
      simp only [Option.bind]
      cases pyOr (nextSiblingTag root pp) (nextTag root pp) with
      | none => rfl
      | some vp =>
        simp only [Option.bind]
        cases nodeAt root vp with
        | none => rfl
        | some v => rfl

/-- extract_description equals the corrected description rule (sibling,
else the enclosing element's parent). -/
theorem description_eq_spec (soup : Node) :
    extract_description soup = specDescriptionRule soup := by
  unfold extract_description specDescriptionRule
  cases findText soup descLabelPat with
  | none => rfl
  | some tp =>
    simp only [Option.bind]
    cases parentOf tp with
    | none => rfl
    | some pp =>
      simp only [Option.bind]
      cases pyOr (nextSiblingTag soup pp) (parentOf pp) with
      | none => rfl
      | some dp => rfl

/-- The accumulation loop of extract_photos is the filter-then-resolve
pipeline of the spec. -/
theorem collectPhotos_eq (l : List Node) :
    collectPhotos l =
      ((l.map fun img => (getAttr img "src").getD "").filter photoOk).map urljoin := by
  induction l with
  | nil => rfl
  | cons img rest ih =>
    simp only [collectPhotos, List.map_cons, List.filter_cons]
    by_cases h : photoOk ((getAttr img "src").getD "")
    · simp [h, ih]
    · simp [h, ih]

/-- Every output of the URL-resolution collaborator carries a scheme. -/
theorem urljoinChars_hasScheme (l : List Char) : listHasScheme (urljoinChars l) = true := by
  unfold urljoinChars
  split
  · decide
  · split
    · next h => exact h
    · split
      · rfl
      · rfl
      · rfl

theorem hasScheme_urljoin (rel : String) : hasScheme (urljoin rel) = true :=
  urljoinChars_hasScheme rel.toList

/-- A nonempty featured-image value is always an absolute (scheme-carrying)
URL, because it passes through the resolver. -/
theorem featured_image_abs (soup : Node) :
    extract_featured_image soup = "" ∨ hasScheme (extract_featured_image soup) = true := by
  unfold extract_featured_image
  split
  · split
    · split
      · exact Or.inl rfl
      · exact Or.inr (hasScheme_urljoin _)
    · exact Or.inl rfl
  · exact Or.inl rfl

/-- Every collected photo URL is absolute. -/
theorem photos_abs (soup : Node) :
    ((collectPhotos (imgNodes soup)).all hasScheme) = true := by
  rw [collectPhotos_eq, List.all_eq_true]
  intro u hu
  simp only [List.mem_map] at hu
  obtain ⟨src, _, rfl⟩ := hu
  exact hasScheme_urljoin src

/-! ## Claim theorems -/

/-- C1: for every syntactically valid parsed document and every input URL
the extraction call is total and returns a complete 26-field record, and
on the empty document (no matching elements at all) every field equals
its documented default: empty strings, the documented literals, zero
flags, or the computed today-plus-90-days date. -/
theorem extract_total_and_empty_defaults :
    (∀ soup url today, (get_job_details soup url today).length = 26) ∧
    (∀ url today, get_job_details emptyDoc url today = specDefaultRecord url today) :=
  ⟨fun _ _ _ => rfl, fun _ _ => rfl⟩

/-- C2: for every input document and URL the returned record carries
exactly the fixed ordered set of 26 job-prefixed keys, which are pairwise
distinct, so no key is missing, duplicated or extraneous; absent
information is a default value under its key, never an omitted key. -/
theorem record_keys_exact (soup : Node) (url : String) (today : Nat) :
    (get_job_details soup url today).map Prod.fst = jobRecordKeys ∧ jobRecordKeys.Nodup :=
  ⟨rfl, by decide⟩

/-- C3: in every produced record the address, location and map-location
fields all equal the one result of the single extract_location pass, and
hence each other. -/
theorem location_fields_identical (soup : Node) (url : String) (today : Nat) :
    getField (get_job_details soup url today) "_job_address" =
      some (.s (extract_location soup)) ∧
    getField (get_job_details soup url today) "_job_location" =
      some (.s (extract_location soup)) ∧
    getField (get_job_details soup url today) "_job_map_location" =
      some (.s (extract_location soup)) :=
  ⟨rfl, rfl, rfl⟩

/-- C4: for every document and URL, the apply URL is the verbatim input
URL, the apply type is the constant external, and the filled flag is the
constant zero. -/
theorem constant_fields (soup : Node) (url : String) (today : Nat) :
    getField (get_job_details soup url today) "_job_apply_url" = some (.s url) ∧
    getField (get_job_details soup url today) "_job_apply_type" = some (.s "external") ∧
    getField (get_job_details soup url today) "_job_filled" = some (.n 0) :=
  ⟨rfl, rfl, rfl⟩

/-- C5: the deadline extractor misses the documented label. The source's
raw-string regex makes the class between Fecha and Límite contain a
literal backslash and the letter s instead of whitespace, so on a document
carrying the label Fecha Límite (with an ordinary space) next to the
parseable date 31/12/2025 the code ignores the date and returns the
today-plus-90 fallback, while the documented label-then-value rule would
return 2025-12-31; the expiry field itself is always today plus 90 days
as claimed. -/
theorem deadline_label_regex_bug (today : Nat) :
    extract_deadline deadlineBugDoc today = calculate_expiry_date today ∧
    matchDeadlineCode "Fecha Límite" = false ∧
    matchDeadlineCode "Fecha\\sLímite" = true ∧
    matchDeadlineSpec "Fecha Límite" = true ∧
    labelValue deadlineBugDoc matchDeadlineSpec = some "31/12/2025" ∧
    (parseDMY "31/12/2025").map formatYMD = some "2025-12-31" ∧
    extract_deadline deadlineBugDoc 20000 ≠ "2025-12-31" :=
  ⟨rfl, by decide, by decide, by decide, by decide, by decide, by decide⟩

/-- C6 counterexample: a document whose only heading text is the nonempty
two-character string AB yields an empty title, not AB, refuting the
claim's first-non-empty-heading rule. -/
theorem title_two_char_heading_cex :
    specHeadingTexts titleCexDoc = ["AB"] ∧ ("AB" : String) ≠ "" ∧
    extract_title titleCexDoc = "" :=
  ⟨by decide, by decide, by decide⟩

/-- C6 amended: the title is the text of the first h1, h2 or h3 heading
whose badge-stripped text is longer than two characters (not merely
non-empty); if no heading qualifies, the class-pattern lookup on
title-like class names is used, otherwise the empty string; and the
scenario heading Vacante Fresca Miscelánea yields the title Miscelánea
with the urgent flag set. -/
theorem title_rule_amended :
    (∀ soup, extract_title soup =
      (((specHeadingTexts soup).filter fun t => decide (2 < t.length)).head?).getD
        (specTitleClassLookup soup)) ∧
    extract_title titleScenDoc = "Miscelánea" ∧ is_urgent titleScenDoc = 1 := by
  refine ⟨fun soup => ?_, by decide, by decide⟩
  rw [← titleCandidates_eq]
  unfold extract_title specTitleClassLookup
  cases titleCandidates soup with
  | nil => simp
  | cons t rest => simp

/-- C7: on the document whose only salary-labeled text is the scenario
string Salario: 450000 - 650000 mensual, the record's salary is the first
numeric token 450000, the maximum salary is the second token 650000, and
the salary type normalizes to Mensual. -/
theorem salary_scenario (url : String) (today : Nat) :
    getField (get_job_details salaryDoc url today) "_job_salary" = some (.s "450000") ∧
    getField (get_job_details salaryDoc url today) "_job_max_salary" = some (.s "650000") ∧
    getField (get_job_details salaryDoc url today) "_job_salary_type" = some (.s "Mensual") :=
  ⟨rfl, rfl, rfl⟩

/-- C8 counterexample: on a document where the description label's
enclosing element has no next sibling, the description extractor reads
the enclosing element's parent (yielding the label text itself), not the
next element in document order (which holds XYZ), refuting the claim
that the shared sibling-else-next idiom covers description. -/
theorem description_fallback_cex :
    extract_description descCexDoc = "Descripción" ∧
    specLabelThenValue descCexDoc descLabelPat = some "XYZ" ∧
    ("Descripción" : String) ≠ "XYZ" :=
  ⟨by decide, by decide, by decide⟩

/-- C8 amended: for the fields category, gender, experience, career level
and qualification (and the deadline label) the value is read by the shared
idiom, from the label node's enclosing element's next sibling or, failing
that, the next element in document order, as the element's flattened
text; description alone instead falls back from the missing sibling to
the enclosing element's parent. -/
theorem label_then_value_rule_amended :
    (∀ root pat, labelValue root pat = specLabelThenValue root pat) ∧
    (∀ soup, extract_description soup = specDescriptionRule soup) ∧
    (∀ soup, extract_category soup = (labelValue soup categoryLabelPat).getD "Aduanas") ∧
    (∀ soup, extract_experience soup = (labelValue soup experienceLabelPat).getD "") ∧
    (∀ soup, extract_qualification soup = (labelValue soup qualificationLabelPat).getD "") := by
  refine ⟨labelValue_eq_spec, description_eq_spec, fun soup => ?_, fun soup => ?_,
    fun soup => ?_⟩
  · unfold extract_category
    cases labelValue soup categoryLabelPat <;> rfl
  · unfold extract_experience
    cases labelValue soup experienceLabelPat <;> rfl
  · unfold extract_qualification
    cases labelValue soup qualificationLabelPat <;> rfl

/-- C9: the photos field is the comma-joined list of all image source
URLs, excluding those whose source contains logo or icon
case-insensitively, each resolved to an absolute URL, in document order
and capped at five entries (the empty join when no image qualifies). -/
theorem photos_rule (soup : Node) :
    extract_photos soup = joinSep "," ((specPhotosList soup).take 5) := by
  unfold extract_photos specPhotosList
  rw [collectPhotos_eq]

/-- C10: a nonempty video URL is the first matching iframe's src attribute
verbatim, never passed through the URL resolver (a relative src stays
relative), while featured-image and photo URLs always carry a scheme
because they are resolved against the base origin. -/
theorem video_url_verbatim :
    (∀ soup, extract_video soup =
      Option.elim ((firstVideoIframe soup).bind (nodeAt soup)) ""
        (fun v => (getAttr v "src").getD "")) ∧
    extract_video videoRelDoc = "youtube/embed1" ∧
    hasScheme (extract_video videoRelDoc) = false ∧
    extract_video videoRelDoc ≠ urljoin (extract_video videoRelDoc) ∧
    (∀ rel, hasScheme (urljoin rel) = true) ∧
    (∀ soup, extract_featured_image soup = "" ∨ hasScheme (extract_featured_image soup) = true) ∧
    (∀ soup, ((collectPhotos (imgNodes soup)).all hasScheme) = true) := by
  refine ⟨fun soup => ?_, by decide, by decide, by decide, hasScheme_urljoin,
    featured_image_abs, photos_abs⟩
  unfold extract_video
  cases (firstVideoIframe soup).bind (nodeAt soup) <;> rfl

end CRJobs
